import Mathlib

/-!
Verification of the squeeze-momentum indicator pipeline
(`src/scripts/squeeze_indicator.py`).

Numeric cells are modelled as `Option ℚ`, with `none` playing the role of a
missing value (NaN): arithmetic propagates `none`, and ordered comparisons
against `none` are false, exactly as NaN behaves in the dataframe
operations of the source.  The Bollinger standard deviation needs a square root, so the
Bollinger bands live in `ℝ`; everything else is exact rational arithmetic.
-/

namespace Squeeze

/-! ### Bar loading (`__main__` lines 53-55)

The raw payload is a list of tokens; a token either parses as a number or
does not (`Tok.bad`).  The script groups the tokens into consecutive chunks
of six and builds a six-column dataframe from them.  Building the frame
fails when the inferred row width differs from the six column names, and
the numeric cast fails when some token is unparseable; a short final chunk
is padded with missing values. -/

inductive Tok where
  | num : ℚ → Tok
  | bad : Tok
deriving DecidableEq

def Tok.isBad : Tok → Bool
  | Tok.num _ => false
  | Tok.bad => true

def tokNum : Tok → Option ℚ
  | Tok.num q => some q
  | Tok.bad => none

inductive LoadErr where
  | columnMismatch : LoadErr
  | parseError : LoadErr
deriving DecidableEq

/-- One OHLCV bar per chunk; field order `(Timestamp, Open, High, Low, Close,
Volume)` as in the source.  Each column is a list of optional rationals. -/
structure Bars where
  Timestamp : List (Option ℚ)
  Open : List (Option ℚ)
  High : List (Option ℚ)
  Low : List (Option ℚ)
  Close : List (Option ℚ)
  Volume : List (Option ℚ)

/-- Source: `data = [data[x:x+6] for x in range(0, len(data), 6)]`. -/
def chunksOf6 (toks : List Tok) : List (List Tok) :=
  (List.range ((toks.length + 5) / 6)).map (fun c => (toks.drop (6 * c)).take 6)

/-- The row width the dataframe constructor infers from ragged data: the
longest chunk. -/
def inferredWidth (toks : List Tok) : ℕ :=
  ((chunksOf6 toks).map List.length).foldr Nat.max 0

/-- Column `k` of the padded chunk matrix: entry `r` is field `k` of chunk
`r`, or a missing value when that chunk is shorter than `k + 1`. -/
def colOf (chunks : List (List Tok)) (k : ℕ) : List (Option ℚ) :=
  chunks.map (fun c => (c.get? k).bind tokNum)

/-- Source: `pd.DataFrame(data, columns=[...6 names...]).astype(float)`: fails when
the inferred width is not six (the column-count `ValueError`), then when some
token does not parse (the cast `ValueError`); otherwise produces the bars,
padding a short final chunk with missing values. -/
def loadBars (toks : List Tok) : Except LoadErr Bars :=
  if inferredWidth toks ≠ 6 then Except.error LoadErr.columnMismatch
  else if toks.any Tok.isBad then Except.error LoadErr.parseError
  else
    let chunks := chunksOf6 toks
    Except.ok ⟨colOf chunks 0, colOf chunks 1, colOf chunks 2,
               colOf chunks 3, colOf chunks 4, colOf chunks 5⟩

/-! ### Missing-value arithmetic and rolling windows -/

/-- Binary arithmetic on cells: any missing operand gives a missing result,
as for NaN in the source. -/
def omap2 (f : ℚ → ℚ → ℚ) : Option ℚ → Option ℚ → Option ℚ
  | some a, some b => some (f a b)
  | _, _ => none

/-- Collects `some` across a whole window, `none` as soon as one entry is missing. -/
def allSome : List (Option ℚ) → Option (List ℚ)
  | [] => some []
  | none :: _ => none
  | some x :: t => (allSome t).map (fun l => x :: l)

/-- The trailing window of width `w` ending at index `i`. -/
def windowSlice (s : List (Option ℚ)) (w i : ℕ) : List (Option ℚ) :=
  (s.take (i + 1)).drop (i + 1 - w)

/-- Rolling window: `Series.rolling(window=w)` aggregated by `f` at index `i`: defined only
when the window is fully inside the series and every entry is present
(`min_periods` defaults to the window size, and NaN entries are not valid
observations).  This models the built-in aggregations (mean, std, max, min),
for which a zero window yields an all-missing column; the `apply`-based
momentum step behaves differently at a zero window and is modelled by
`valueE` below. -/
def rollingAt (w : ℕ) (f : List ℚ → ℚ) (s : List (Option ℚ)) (i : ℕ) : Option ℚ :=
  if 1 ≤ w ∧ w ≤ i + 1 ∧ i < s.length then (allSome (windowSlice s w i)).map f
  else none

/-- The whole rolled column, index-aligned with `s`. -/
def rollingCol (w : ℕ) (f : List ℚ → ℚ) (s : List (Option ℚ)) : List (Option ℚ) :=
  (List.range s.length).map (rollingAt w f s)

/-! ### Window aggregations -/

def meanQ (l : List ℚ) : ℚ := l.sum / l.length

/-- Population variance (`ddof=0`: denominator is the window size). -/
def varQ (l : List ℚ) : ℚ := ((l.map (fun x => (x - meanQ l) ^ 2)).sum) / l.length

def maxQ : List ℚ → ℚ
  | [] => 0
  | x :: xs => xs.foldl max x

def minQ : List ℚ → ℚ
  | [] => 0
  | x :: xs => xs.foldl min x

/-! ### The windowed least-squares fit (`np.polyfit(fit_y, x, 1)`)

`fit_y = range(0, length_KC)`, so the x-coordinates of the fit are the
window positions `0, …, w-1`.  In exact arithmetic the degree-one fit is the
solution of the normal equations, written with the usual power sums. -/

def Sx (n : ℕ) : ℚ := ((List.range n).map (fun (j : ℕ) => (j : ℚ))).sum

def Sxx (n : ℕ) : ℚ := ((List.range n).map (fun (j : ℕ) => (j : ℚ) ^ 2)).sum

def Sy (ys : List ℚ) : ℚ := ys.sum

def Sxy (ys : List ℚ) : ℚ :=
  ((List.range ys.length).map (fun (j : ℕ) => (j : ℚ) * ys.getD j 0)).sum

/-- Slope of the least-squares line (`np.polyfit(fit_y, x, 1)[0]`). -/
def lsqSlope (ys : List ℚ) : ℚ :=
  ((ys.length : ℚ) * Sxy ys - Sx ys.length * Sy ys) /
    ((ys.length : ℚ) * Sxx ys.length - (Sx ys.length) ^ 2)

/-- Intercept of the least-squares line (`np.polyfit(fit_y, x, 1)[1]`). -/
def lsqIntercept (ys : List ℚ) : ℚ :=
  (Sy ys - lsqSlope ys * Sx ys.length) / (ys.length : ℚ)

/-- The lambda rolled over the deviation series:
`polyfit[0] * (length_KC - 1) + polyfit[1]`. -/
def polyfitEval (w : ℕ) (ys : List ℚ) : ℚ :=
  lsqSlope ys * ((w : ℚ) - 1) + lsqIntercept ys

/-- Sum of squared residuals of the line `y = a·x + b` over the window,
x-coordinates being the window positions. -/
def RSS (ys : List ℚ) (a b : ℚ) : ℚ :=
  ((List.range ys.length).map (fun (j : ℕ) => (ys.getD j 0 - (a * (j : ℚ) + b)) ^ 2)).sum

/-! ### The indicator columns (`squeeze_indicator`) -/

structure Params where
  length : ℕ
  mult : ℚ
  length_KC : ℕ
  mult_KC : ℚ

/-- Source: `df.ohlc4 = df.Close` (the four-price average is commented out). -/
def ohlc4 (df : Bars) : List (Option ℚ) := df.Close

/-- Source: `df.tr = df.High - df.Low`. -/
def tr (df : Bars) : List (Option ℚ) :=
  List.zipWith (omap2 (fun h l => h - l)) df.High df.Low

/-- Source: `df.hl2 = (df.High + df.Low)/2.`. -/
def hl2 (df : Bars) : List (Option ℚ) :=
  List.zipWith (omap2 (fun h l => (h + l) / 2)) df.High df.Low

def m_avg1 (df : Bars) (p : Params) : List (Option ℚ) :=
  rollingCol p.length meanQ (ohlc4 df)

def m_avg2 (df : Bars) (p : Params) : List (Option ℚ) :=
  rollingCol p.length_KC meanQ (ohlc4 df)

def range_ma (df : Bars) (p : Params) : List (Option ℚ) :=
  rollingCol p.length_KC meanQ (tr df)

/-- The rolling population variance; the quantity `m_std` of the source is its square
root, taken below in `ℝ`. -/
def m_var (df : Bars) (p : Params) : List (Option ℚ) :=
  rollingCol p.length varQ (ohlc4 df)

def upper_KC (df : Bars) (p : Params) : List (Option ℚ) :=
  List.zipWith (omap2 (fun m r => m + r * p.mult_KC)) (m_avg2 df p) (range_ma df p)

def lower_KC (df : Bars) (p : Params) : List (Option ℚ) :=
  List.zipWith (omap2 (fun m r => m - r * p.mult_KC)) (m_avg2 df p) (range_ma df p)

def highest (df : Bars) (p : Params) : List (Option ℚ) :=
  rollingCol p.length_KC maxQ (hl2 df)

def lowest (df : Bars) (p : Params) : List (Option ℚ) :=
  rollingCol p.length_KC minQ df.Low

def sma_hl2 (df : Bars) (p : Params) : List (Option ℚ) :=
  rollingCol p.length_KC meanQ (hl2 df)

/-- Source: `m1 = (highest + lowest)/2.`. -/
def m1 (df : Bars) (p : Params) : List (Option ℚ) :=
  List.zipWith (omap2 (fun a b => (a + b) / 2)) (highest df p) (lowest df p)

/-- The first assignment to the value column:
`df.ohlc4 - (m1 + sma_hl2)/2.`. -/
def devCol (df : Bars) (p : Params) : List (Option ℚ) :=
  List.zipWith (omap2 (fun c m => c - m)) (ohlc4 df)
    (List.zipWith (omap2 (fun a b => (a + b) / 2)) (m1 df p) (sma_hl2 df p))

/-- The second assignment to the value column: the deviation series rolled
through the windowed least-squares projection.  (For a positive window; the
error-aware `valueE` below also covers the zero-window crash.) -/
def value (df : Bars) (p : Params) : List (Option ℚ) :=
  rollingCol p.length_KC (polyfitEval p.length_KC) (devCol df p)

/-- Runtime failure of the momentum step: `np.polyfit` raises a `TypeError`
(expected non-empty vector) when handed the empty coordinate vector. -/
inductive RunErr where
  | typeError : RunErr
deriving DecidableEq

/-- The momentum assignment, error-aware.  For `rolling(window).apply` the
`min_periods` floor is 0, so with a zero window the empty slice of every row
still counts as a valid window and the lambda is invoked on it; `np.polyfit`
then raises a `TypeError` on the empty vector `fit_y = range(0, 0)`.  With a
positive window the column is `value` (the lambda is only invoked on full
windows); with a zero window over an empty frame there is no invocation and
the empty column comes back. -/
def valueE (df : Bars) (p : Params) : Except RunErr (List (Option ℚ)) :=
  if p.length_KC = 0 ∧ (devCol df p).length ≠ 0 then Except.error RunErr.typeError
  else Except.ok (value df p)

/-! ### Bollinger bands (real-valued: the standard deviation is a square
root) and squeeze flags -/

noncomputable def m_stdR (df : Bars) (p : Params) (i : ℕ) : Option ℝ :=
  ((m_var df p).getD i none).map (fun v => Real.sqrt (v : ℝ))

/-- Source: `df.upper_BB = m_avg1 + mult * m_std`. -/
noncomputable def upper_BB (df : Bars) (p : Params) (i : ℕ) : Option ℝ :=
  match (m_avg1 df p).getD i none, (m_var df p).getD i none with
  | some m, some v => some ((m : ℝ) + (p.mult : ℝ) * Real.sqrt (v : ℝ))
  | _, _ => none

/-- Source: `df.lower_BB = m_avg1 - mult * m_std`. -/
noncomputable def lower_BB (df : Bars) (p : Params) (i : ℕ) : Option ℝ :=
  match (m_avg1 df p).getD i none, (m_var df p).getD i none with
  | some m, some v => some ((m : ℝ) - (p.mult : ℝ) * Real.sqrt (v : ℝ))
  | _, _ => none

/-- A strict `<` between a rational cell and a real cell; false whenever
either side is missing, as for NaN. -/
def oltQR (q : Option ℚ) (r : Option ℝ) : Prop :=
  ∃ x y, q = some x ∧ r = some y ∧ (x : ℝ) < y

def oltRQ (r : Option ℝ) (q : Option ℚ) : Prop :=
  ∃ x y, r = some x ∧ q = some y ∧ x < (y : ℝ)

/-- Source: `df.squeeze_on = (lower_BB > lower_KC) & (upper_BB < upper_KC)`. -/
def squeeze_on (df : Bars) (p : Params) (i : ℕ) : Prop :=
  oltQR ((lower_KC df p).getD i none) (lower_BB df p i) ∧
    oltRQ (upper_BB df p i) ((upper_KC df p).getD i none)

/-- Source: `df.squeeze_off = (lower_BB < lower_KC) & (upper_BB > upper_KC)`. -/
def squeeze_off (df : Bars) (p : Params) (i : ℕ) : Prop :=
  oltRQ (lower_BB df p i) ((lower_KC df p).getD i none) ∧
    oltQR ((upper_KC df p).getD i none) (upper_BB df p i)

/-! ### The color loop (`__main__` lines 62-78)

Comparisons against a missing momentum value are false, as for NaN floats.
-/

def ogeZ : Option ℚ → Bool
  | some v => decide (0 ≤ v)
  | none => false

/-- Source: `val > value[ind-1]`. -/
def ogtPrev : Option ℚ → Option ℚ → Bool
  | some a, some b => decide (b < a)
  | _, _ => false

/-- Source: `val < value[ind-1]`. -/
def oltPrev : Option ℚ → Option ℚ → Bool
  | some a, some b => decide (a < b)
  | _, _ => false

def colorAt (vals : List (Option ℚ)) (ind : ℕ) : String :=
  let val := vals.getD ind none
  if ind = 0 then
    if ogeZ val then "lime" else "red"
  else
    if ogeZ val then
      if ogtPrev val (vals.getD (ind - 1) none) then "lime" else "green"
    else
      if oltPrev val (vals.getD (ind - 1) none) then "red" else "maroon"

/-- One color per row of the frame, including rows whose momentum value is
missing. -/
def colorsOf (vals : List (Option ℚ)) : List String :=
  (List.range vals.length).map (colorAt vals)

def colors (df : Bars) (p : Params) : List String := colorsOf (value df p)

/-- A failure of the whole script: either the loader raises, or the
momentum step does. -/
inductive ScriptErr where
  | load : LoadErr → ScriptErr
  | run : RunErr → ScriptErr
deriving DecidableEq

/-- The whole script: load the bars, compute the indicator (the momentum
step can raise), emit the momentum values together with their colors. -/
def runPipeline (toks : List Tok) (p : Params) :
    Except ScriptErr (List (Option ℚ) × List String) :=
  match loadBars toks with
  | Except.error e => Except.error (ScriptErr.load e)
  | Except.ok df =>
      match valueE df p with
      | Except.error e => Except.error (ScriptErr.run e)
      | Except.ok vals => Except.ok (vals, colorsOf vals)

/-! ### The dataframe as a column store (for the frame-effect claim)

`squeeze_indicator` mutates its argument only by column assignment; we model
the frame as an association list from column names to column payloads and
replay the exact sequence of assignments the function performs, including
the two successive assignments to `value`. -/

inductive ColData where
  | qcol : List (Option ℚ) → ColData
  | rcol : (ℕ → Option ℝ) → ColData
  | pcol : (ℕ → Prop) → ColData

/-- Column assignment `df[name] = payload`: replace the column when the name exists, append it
otherwise. -/
def setCol (nm : String) (c : ColData) :
    List (String × ColData) → List (String × ColData)
  | [] => [(nm, c)]
  | (n, d) :: rest => if n = nm then (n, c) :: rest else (n, d) :: setCol nm c rest

def getCol : List (String × ColData) → String → Option ColData
  | [], _ => none
  | (n, d) :: rest, nm => if n = nm then some d else getCol rest nm

/-- The frame as loaded: the six bar columns, in order. -/
def barsFrame (df : Bars) : List (String × ColData) :=
  [("Timestamp", ColData.qcol df.Timestamp), ("Open", ColData.qcol df.Open),
   ("High", ColData.qcol df.High), ("Low", ColData.qcol df.Low),
   ("Close", ColData.qcol df.Close), ("Volume", ColData.qcol df.Volume)]

/-- The column assignments of `squeeze_indicator`, in source order:
`ohlc4`, `tr`, `upper_BB`, `lower_BB`, `upper_KC`, `lower_KC`, `hl2`,
`value` (the deviation series), `value` again (the regression projection),
`squeeze_on`, `squeeze_off`. -/
noncomputable def squeeze_indicator (df : Bars) (p : Params) :
    List (String × ColData) :=
  setCol "squeeze_off" (ColData.pcol (squeeze_off df p))
    (setCol "squeeze_on" (ColData.pcol (squeeze_on df p))
      (setCol "value" (ColData.qcol (value df p))
        (setCol "value" (ColData.qcol (devCol df p))
          (setCol "hl2" (ColData.qcol (hl2 df))
            (setCol "lower_KC" (ColData.qcol (lower_KC df p))
              (setCol "upper_KC" (ColData.qcol (upper_KC df p))
                (setCol "lower_BB" (ColData.rcol (lower_BB df p))
                  (setCol "upper_BB" (ColData.rcol (upper_BB df p))
                    (setCol "tr" (ColData.qcol (tr df))
                      (setCol "ohlc4" (ColData.qcol (ohlc4 df))
                        (barsFrame df)))))))))))

/-! ### Generic lemmas about the embedding -/

lemma length_rollingCol (w : ℕ) (f : List ℚ → ℚ) (s : List (Option ℚ)) :
    (rollingCol w f s).length = s.length := by
  simp [rollingCol]

lemma rollingCol_getD (w : ℕ) (f : List ℚ → ℚ) (s : List (Option ℚ)) (i : ℕ) :
    (rollingCol w f s).getD i none = rollingAt w f s i := by
  by_cases h : i < s.length
  · have h2 : i < (rollingCol w f s).length := by simpa [length_rollingCol] using h
    rw [List.getD_eq_getElem _ _ h2]
    simp [rollingCol]
  · rw [List.getD_eq_default _ _ (by simpa [length_rollingCol] using Nat.le_of_not_lt h),
      rollingAt, if_neg]
    intro hc
    exact h hc.2.2

lemma rollingAt_not_full (w : ℕ) (f : List ℚ → ℚ) (s : List (Option ℚ)) (i : ℕ)
    (h : i + 1 < w) : rollingAt w f s i = none := by
  rw [rollingAt, if_neg]
  intro hc
  omega

lemma windowSlice_length (s : List (Option ℚ)) (w i : ℕ) (h1 : w ≤ i + 1)
    (h2 : i < s.length) : (windowSlice s w i).length = w := by
  simp only [windowSlice, List.length_drop, List.length_take]
  omega

lemma allSome_length : ∀ {l : List (Option ℚ)} {xs : List ℚ},
    allSome l = some xs → xs.length = l.length := by
  intro l
  induction l with
  | nil =>
    intro xs h
    simp only [allSome, Option.some.injEq] at h
    subst h
    rfl
  | cons hd t ih =>
    intro xs h
    cases hd with
    | none => simp [allSome] at h
    | some x =>
      simp only [allSome] at h
      cases ht : allSome t with
      | none => rw [ht] at h; simp at h
      | some l' =>
        rw [ht] at h
        simp only [Option.map_some', Option.some.injEq] at h
        subst h
        simp [ih ht]

lemma allSome_replicate (n : ℕ) (c : ℚ) :
    allSome (List.replicate n (some c)) = some (List.replicate n c) := by
  induction n with
  | zero => rfl
  | succ n ih => simp [List.replicate_succ, allSome, ih]

lemma omap2_none_left (f : ℚ → ℚ → ℚ) (y : Option ℚ) : omap2 f none y = none := by
  cases y <;> rfl

lemma omap2_none_right (f : ℚ → ℚ → ℚ) (x : Option ℚ) : omap2 f x none = none := by
  cases x <;> rfl

lemma zipWith_omap2_getD (f : ℚ → ℚ → ℚ) (a b : List (Option ℚ)) (i : ℕ) :
    (List.zipWith (omap2 f) a b).getD i none =
      omap2 f (a.getD i none) (b.getD i none) := by
  induction a generalizing b i with
  | nil => simp [omap2_none_left]
  | cons x t ih =>
    cases b with
    | nil => simp [omap2_none_right]
    | cons y u =>
      cases i with
      | zero => simp
      | succ i => simpa using ih u i

lemma omap2_replicate (f : ℚ → ℚ → ℚ) (a b : ℚ) (n : ℕ) :
    List.zipWith (omap2 f) (List.replicate n (some a)) (List.replicate n (some b)) =
      List.replicate n (some (f a b)) := by
  induction n with
  | zero => rfl
  | succ n ih => simp [List.replicate_succ, omap2, ih]

lemma length_colorsOf (vals : List (Option ℚ)) : (colorsOf vals).length = vals.length := by
  simp [colorsOf]

lemma colorsOf_getD (vals : List (Option ℚ)) (i : ℕ) (h : i < vals.length) :
    (colorsOf vals).getD i "" = colorAt vals i := by
  have h2 : i < (colorsOf vals).length := by simpa [length_colorsOf] using h
  rw [List.getD_eq_getElem _ _ h2]
  simp [colorsOf]

/-! ### The least-squares fit really is the ordinary least-squares minimiser -/

lemma list_sum_range (f : ℕ → ℚ) (n : ℕ) :
    ((List.range n).map f).sum = ∑ j ∈ Finset.range n, f j := by
  induction n with
  | zero => simp
  | succ n ih =>
    rw [List.range_succ, List.map_append, List.sum_append, Finset.sum_range_succ, ih]
    simp

lemma list_sum_getD (ys : List ℚ) :
    Sy ys = ∑ j ∈ Finset.range ys.length, ys.getD j 0 := by
  rw [Sy]
  induction ys with
  | nil => simp
  | cons a t ih =>
    rw [List.sum_cons, List.length_cons, Finset.sum_range_succ']
    simp only [List.getD_cons_succ, List.getD_cons_zero]
    rw [ih]
    ring

lemma Sx_eq (n : ℕ) : Sx n = (n : ℚ) * ((n : ℚ) - 1) / 2 := by
  induction n with
  | zero => simp [Sx]
  | succ n ih =>
    rw [Sx, List.range_succ, List.map_append, List.sum_append, ← Sx, ih]
    simp only [List.map_cons, List.map_nil, List.sum_cons, List.sum_nil]
    push_cast
    ring

lemma Sxx_eq (n : ℕ) : Sxx n = (n : ℚ) * ((n : ℚ) - 1) * (2 * (n : ℚ) - 1) / 6 := by
  induction n with
  | zero => simp [Sxx]
  | succ n ih =>
    rw [Sxx, List.range_succ, List.map_append, List.sum_append, ← Sxx, ih]
    simp only [List.map_cons, List.map_nil, List.sum_cons, List.sum_nil]
    push_cast
    ring

lemma den_eq (n : ℕ) :
    (n : ℚ) * Sxx n - (Sx n) ^ 2 = (n : ℚ) ^ 2 * ((n : ℚ) - 1) * ((n : ℚ) + 1) / 12 := by
  rw [Sx_eq, Sxx_eq]
  ring

lemma den_pos (n : ℕ) (h : 2 ≤ n) : 0 < (n : ℚ) * Sxx n - (Sx n) ^ 2 := by
  rw [den_eq]
  have h2 : (2 : ℚ) ≤ (n : ℚ) := by exact_mod_cast h
  have h0 : (0 : ℚ) < (n : ℚ) := by linarith
  have h3 : (0 : ℚ) < (n : ℚ) - 1 := by linarith
  have h4 : (0 : ℚ) < (n : ℚ) + 1 := by linarith
  have := mul_pos (mul_pos (pow_pos h0 2) h3) h4
  linarith

/-- Sum of the fitted residuals: zero (first normal equation). -/
lemma resid_sum (ys : List ℚ) :
    ∑ j ∈ Finset.range ys.length,
      (ys.getD j 0 - (lsqSlope ys * (j : ℚ) + lsqIntercept ys)) = 0 := by
  rcases Nat.eq_zero_or_pos ys.length with h | h
  · rw [h]
    simp
  · have hn : ((ys.length : ℚ)) ≠ 0 := Nat.cast_ne_zero.mpr h.ne'
    have e1 : ∑ j ∈ Finset.range ys.length,
        (ys.getD j 0 - (lsqSlope ys * (j : ℚ) + lsqIntercept ys))
        = Sy ys - (lsqSlope ys * Sx ys.length + (ys.length : ℚ) * lsqIntercept ys) := by
      rw [Finset.sum_sub_distrib, Finset.sum_add_distrib, ← Finset.mul_sum,
        ← list_sum_getD, Finset.sum_const, Finset.card_range, nsmul_eq_mul]
      rw [Sx, list_sum_range]
    rw [e1, lsqIntercept]
    field_simp

/-- Sum of the fitted residuals weighted by the x-coordinate: zero (second
normal equation). -/
lemma residx_sum (ys : List ℚ) :
    ∑ j ∈ Finset.range ys.length,
      ((j : ℚ) * (ys.getD j 0 - (lsqSlope ys * (j : ℚ) + lsqIntercept ys))) = 0 := by
  have e1 : ∑ j ∈ Finset.range ys.length,
      ((j : ℚ) * (ys.getD j 0 - (lsqSlope ys * (j : ℚ) + lsqIntercept ys)))
      = Sxy ys - (lsqSlope ys * Sxx ys.length + lsqIntercept ys * Sx ys.length) := by
    have e2 : ∀ j ∈ Finset.range ys.length,
        (j : ℚ) * (ys.getD j 0 - (lsqSlope ys * (j : ℚ) + lsqIntercept ys))
        = (j : ℚ) * ys.getD j 0 -
            (lsqSlope ys * (j : ℚ) ^ 2 + lsqIntercept ys * (j : ℚ)) := by
      intro j _
      ring
    rw [Finset.sum_congr rfl e2, Finset.sum_sub_distrib, Finset.sum_add_distrib,
      ← Finset.mul_sum, ← Finset.mul_sum]
    rw [Sxy, list_sum_range, Sxx, list_sum_range, Sx, list_sum_range]
  rcases Nat.lt_or_ge ys.length 2 with h | h
  · have h01 : ys.length = 0 ∨ ys.length = 1 := by omega
    rcases h01 with h0 | h1
    · rw [e1]
      have hxy : Sxy ys = 0 := by
        rw [Sxy, h0]
        simp
      rw [hxy, Sx_eq, Sxx_eq, h0]
      norm_num
    · rw [e1]
      have hxy : Sxy ys = 0 := by
        rw [Sxy, h1]
        simp [List.range_succ]
      rw [hxy, Sx_eq, Sxx_eq, h1]
      norm_num
  · have hn : ((ys.length : ℚ)) ≠ 0 := by
      have : (0 : ℕ) < ys.length := by omega
      exact Nat.cast_ne_zero.mpr this.ne'
    have hD : (ys.length : ℚ) * Sxx ys.length - (Sx ys.length) ^ 2 ≠ 0 :=
      (den_pos ys.length h).ne'
    rw [e1, lsqIntercept, lsqSlope]
    field_simp
    ring

/-- The coefficients the code computes minimise the sum of squared residuals:
they are *the* ordinary-least-squares fit of the window against the
x-coordinates `0, …, w-1`. -/
lemma RSS_min (ys : List ℚ) (a' b' : ℚ) :
    RSS ys (lsqSlope ys) (lsqIntercept ys) ≤ RSS ys a' b' := by
  have hR : ∀ a'' b'' : ℚ, RSS ys a'' b''
      = ∑ j ∈ Finset.range ys.length, (ys.getD j 0 - (a'' * (j : ℚ) + b'')) ^ 2 :=
    fun a'' b'' => list_sum_range _ _
  rw [hR, hR]
  have key : ∑ j ∈ Finset.range ys.length, (ys.getD j 0 - (a' * (j : ℚ) + b')) ^ 2
      = ∑ j ∈ Finset.range ys.length,
          (ys.getD j 0 - (lsqSlope ys * (j : ℚ) + lsqIntercept ys)) ^ 2
        + (2 * (lsqSlope ys - a') *
            ∑ j ∈ Finset.range ys.length,
              ((j : ℚ) * (ys.getD j 0 - (lsqSlope ys * (j : ℚ) + lsqIntercept ys)))
          + 2 * (lsqIntercept ys - b') *
            ∑ j ∈ Finset.range ys.length,
              (ys.getD j 0 - (lsqSlope ys * (j : ℚ) + lsqIntercept ys)))
        + ∑ j ∈ Finset.range ys.length,
            ((lsqSlope ys - a') * (j : ℚ) + (lsqIntercept ys - b')) ^ 2 := by
    rw [Finset.mul_sum, Finset.mul_sum, ← Finset.sum_add_distrib,
      ← Finset.sum_add_distrib, ← Finset.sum_add_distrib]
    apply Finset.sum_congr rfl
    intro j _
    ring
  rw [key, resid_sum, residx_sum]
  have hd : 0 ≤ ∑ j ∈ Finset.range ys.length,
      ((lsqSlope ys - a') * (j : ℚ) + (lsqIntercept ys - b')) ^ 2 :=
    Finset.sum_nonneg fun j _ => sq_nonneg _
  linarith

/-! ### Extracting the window behind a defined momentum value -/

/-- The fully-populated deviation window behind index `i`, when it exists. -/
def devWindow (df : Bars) (p : Params) (i : ℕ) : List ℚ :=
  (allSome (windowSlice (devCol df p) p.length_KC i)).getD []

lemma value_some_elim {df : Bars} {p : Params} {i : ℕ} {v : ℚ}
    (h : (value df p).getD i none = some v) :
    allSome (windowSlice (devCol df p) p.length_KC i) = some (devWindow df p i) ∧
    (devWindow df p i).length = p.length_KC ∧
    v = polyfitEval p.length_KC (devWindow df p i) := by
  rw [value, rollingCol_getD, rollingAt] at h
  by_cases hc : 1 ≤ p.length_KC ∧ p.length_KC ≤ i + 1 ∧ i < (devCol df p).length
  · rw [if_pos hc] at h
    cases hA : allSome (windowSlice (devCol df p) p.length_KC i) with
    | none =>
      rw [hA] at h
      simp at h
    | some ds =>
      rw [hA] at h
      simp only [Option.map_some', Option.some.injEq] at h
      have hdw : devWindow df p i = ds := by rw [devWindow, hA]; rfl
      refine ⟨by rw [hdw], ?_, by rw [hdw]; exact h.symm⟩
      rw [hdw, allSome_length hA, windowSlice_length _ _ _ hc.2.1 hc.2.2]
  · rw [if_neg hc] at h
    exact absurd h (by simp)

/-! ### Width-one rolling windows -/

lemma take_drop_singleton (s : List (Option ℚ)) :
    ∀ i, i < s.length → (s.take (i + 1)).drop i = [s.getD i none] := by
  induction s with
  | nil =>
    intro i h
    simp at h
  | cons a t ih =>
    intro i h
    cases i with
    | zero => simp
    | succ i =>
      have h' : i < t.length := by simpa using h
      simpa using ih i h'

lemma rollingAt_one (f : List ℚ → ℚ) (s : List (Option ℚ)) (i : ℕ) :
    rollingAt 1 f s i = (s.getD i none).map (fun x => f [x]) := by
  by_cases h : i < s.length
  · rw [rollingAt, if_pos ⟨le_refl 1, by omega, h⟩, windowSlice, Nat.add_sub_cancel,
      take_drop_singleton s i h]
    cases hx : s.getD i none <;> simp [allSome]
  · rw [rollingAt, if_neg (fun hc => h hc.2.2),
      List.getD_eq_default _ _ (Nat.le_of_not_lt h)]
    rfl

lemma meanQ_singleton (x : ℚ) : meanQ [x] = x := by
  norm_num [meanQ]

lemma varQ_singleton (x : ℚ) : varQ [x] = 0 := by
  norm_num [varQ, meanQ]

lemma maxQ_singleton (x : ℚ) : maxQ [x] = x := rfl

lemma minQ_singleton (x : ℚ) : minQ [x] = x := rfl

lemma polyfitEval_one (d : ℚ) : polyfitEval 1 [d] = d := by
  norm_num [polyfitEval, lsqSlope, lsqIntercept, Sx, Sxx, Sy, Sxy, List.range_succ]

/-! ### Constant (replicated) series -/

lemma foldl_max_replicate (n : ℕ) (c : ℚ) : (List.replicate n c).foldl max c = c := by
  induction n with
  | zero => rfl
  | succ n ih => simp [List.replicate_succ, List.foldl_cons, max_self, ih]

lemma foldl_min_replicate (n : ℕ) (c : ℚ) : (List.replicate n c).foldl min c = c := by
  induction n with
  | zero => rfl
  | succ n ih => simp [List.replicate_succ, List.foldl_cons, min_self, ih]

lemma maxQ_replicate (n : ℕ) (c : ℚ) (h : n ≠ 0) : maxQ (List.replicate n c) = c := by
  cases n with
  | zero => exact absurd rfl h
  | succ n =>
    rw [List.replicate_succ]
    exact foldl_max_replicate n c

lemma minQ_replicate (n : ℕ) (c : ℚ) (h : n ≠ 0) : minQ (List.replicate n c) = c := by
  cases n with
  | zero => exact absurd rfl h
  | succ n =>
    rw [List.replicate_succ]
    exact foldl_min_replicate n c

lemma meanQ_replicate (n : ℕ) (c : ℚ) (h : n ≠ 0) : meanQ (List.replicate n c) = c := by
  rw [meanQ, List.sum_replicate, List.length_replicate, nsmul_eq_mul]
  exact mul_div_cancel_left₀ c (Nat.cast_ne_zero.mpr h)

lemma varQ_replicate (n : ℕ) (c : ℚ) (h : n ≠ 0) : varQ (List.replicate n c) = 0 := by
  rw [varQ, meanQ_replicate n c h]
  simp

lemma rollingAt_replicate (w n i : ℕ) (c : ℚ) (f : List ℚ → ℚ) (h1 : 1 ≤ w)
    (h2 : w ≤ i + 1) (h3 : i < n) :
    rollingAt w f (List.replicate n (some c)) i = some (f (List.replicate w c)) := by
  rw [rollingAt, if_pos ⟨h1, h2, by simpa using h3⟩, windowSlice]
  rw [List.take_replicate, List.drop_replicate]
  have hm : min (i + 1) n - (i + 1 - w) = w := by omega
  rw [hm, allSome_replicate]
  rfl

/-! ### Behaviour of the color classifier -/

lemma colorAt_zero_none (vals : List (Option ℚ)) (h : vals.getD 0 none = none) :
    colorAt vals 0 = "red" := by
  have h' : vals[0]?.getD none = none := by
    rw [← List.getD_eq_getElem?_getD]
    exact h
  simp [colorAt, h', ogeZ]

lemma colorAt_pos_none (vals : List (Option ℚ)) (i : ℕ) (h0 : i ≠ 0)
    (h : vals.getD i none = none) : colorAt vals i = "maroon" := by
  have h' : vals[i]?.getD none = none := by
    rw [← List.getD_eq_getElem?_getD]
    exact h
  simp [colorAt, h0, h', ogeZ, oltPrev]

lemma colorAt_zero_some (vals : List (Option ℚ)) (v : ℚ)
    (hv : vals.getD 0 none = some v) :
    colorAt vals 0 = if 0 ≤ v then "lime" else "red" := by
  have hv' : vals[0]?.getD none = some v := by
    rw [← List.getD_eq_getElem?_getD]
    exact hv
  by_cases hle : 0 ≤ v <;> simp [colorAt, hv', ogeZ, hle]

lemma colorAt_first_pos (vals : List (Option ℚ)) (i : ℕ) (v : ℚ) (h0 : i ≠ 0)
    (hv : vals.getD i none = some v) (hprev : vals.getD (i - 1) none = none) :
    colorAt vals i = if 0 ≤ v then "green" else "maroon" := by
  have hv' : vals[i]?.getD none = some v := by
    rw [← List.getD_eq_getElem?_getD]
    exact hv
  have hprev' : vals[i - 1]?.getD none = none := by
    rw [← List.getD_eq_getElem?_getD]
    exact hprev
  by_cases hle : 0 ≤ v <;>
    simp [colorAt, h0, hv', hprev', ogeZ, ogtPrev, oltPrev, hle]

/-- Index `i` carries the first defined momentum value. -/
def FirstDefined (vals : List (Option ℚ)) (i : ℕ) : Prop :=
  (vals.getD i none).isSome ∧ ∀ j, j < i → vals.getD j none = none

lemma getD_some_lt_length {vals : List (Option ℚ)} {i : ℕ} {v : ℚ}
    (h : vals.getD i none = some v) : i < vals.length := by
  by_contra hn
  rw [List.getD_eq_default _ _ (Nat.le_of_not_lt hn)] at h
  exact Option.noConfusion h

/-- At the first defined momentum index the code's color is decided by the
running (non-initial) rule whenever that index is positive: the comparison
with the missing predecessor is false, so no upgrade to `lime`/`red` can
happen. -/
lemma colorsOf_first_defined (vals : List (Option ℚ)) (i : ℕ) (v : ℚ)
    (hfd : FirstDefined vals i) (hv : vals.getD i none = some v) :
    (colorsOf vals).getD i "" =
      if i = 0 then (if 0 ≤ v then "lime" else "red")
      else (if 0 ≤ v then "green" else "maroon") := by
  have hlen : i < vals.length := getD_some_lt_length hv
  rw [colorsOf_getD vals i hlen]
  by_cases h0 : i = 0
  · subst h0
    rw [colorAt_zero_some vals v hv, if_pos rfl]
  · rw [if_neg h0, colorAt_first_pos vals i v h0 hv (hfd.2 (i - 1) (by omega))]

/-! ### Loader lemmas -/

def isOkE (e : Except LoadErr Bars) : Bool :=
  match e with
  | Except.ok _ => true
  | Except.error _ => false

lemma foldr_max_le (l : List ℕ) (b : ℕ) (h : ∀ x ∈ l, x ≤ b) :
    l.foldr Nat.max 0 ≤ b := by
  induction l with
  | nil => exact Nat.zero_le b
  | cons a t ih =>
    simp only [List.foldr_cons]
    exact Nat.max_le.mpr ⟨h a (by simp), ih (fun x hx => h x (by simp [hx]))⟩

lemma le_foldr_max (l : List ℕ) (x : ℕ) (hx : x ∈ l) : x ≤ l.foldr Nat.max 0 := by
  induction l with
  | nil => cases hx
  | cons a t ih =>
    simp only [List.foldr_cons]
    rcases List.mem_cons.mp hx with h | h
    · subst h
      exact Nat.le_max_left _ _
    · exact Nat.le_trans (ih h) (Nat.le_max_right _ _)

/-- With at least six tokens the first chunk is full, so the inferred row
width is exactly six. -/
lemma inferredWidth_six (toks : List Tok) (h : 6 ≤ toks.length) :
    inferredWidth toks = 6 := by
  apply Nat.le_antisymm
  · apply foldr_max_le
    intro x hx
    rw [List.mem_map] at hx
    obtain ⟨c, _, rfl⟩ := hx
    rw [chunksOf6] at *
    obtain ⟨k, _, rfl⟩ := List.mem_map.mp (by assumption)
    simp [List.length_take]
  · apply le_foldr_max
    rw [List.mem_map]
    refine ⟨(toks.drop (6 * 0)).take 6, ?_, ?_⟩
    · rw [chunksOf6]
      exact List.mem_map.mpr ⟨0, List.mem_range.mpr (by omega), rfl⟩
    · simp [List.length_take, List.length_drop]
      omega

/-! ### Concrete data used by the witnesses and counterexamples -/

/-- Three bars with `High = 2`, `Low = 0`, `Close = 1` throughout. -/
def df₁ : Bars :=
  ⟨List.replicate 3 (some 0), List.replicate 3 (some 0),
   List.replicate 3 (some 2), List.replicate 3 (some 0),
   List.replicate 3 (some 1), List.replicate 3 (some 0)⟩

def p₁ : Params := ⟨1, 2, 2, 3 / 2⟩

def p₂ : Params := ⟨2, 2, 2, 3 / 2⟩

/-- Scenario A: 25 flat bars, `close = 10`, `high = 11`, `low = 9`. -/
def dfA : Bars :=
  ⟨List.replicate 25 (some 0), List.replicate 25 (some 0),
   List.replicate 25 (some 11), List.replicate 25 (some 9),
   List.replicate 25 (some 10), List.replicate 25 (some 0)⟩

def pA : Params := ⟨20, 2, 20, 3 / 2⟩

/-- One bar with `Close = 10`. -/
def df₇ : Bars :=
  ⟨[some 0], [some 0], [some 0], [some 0], [some 10], [some 0]⟩

def p₇ : Params := ⟨1, 2, 1, 3 / 2⟩

/-- A seven-token payload. -/
def toks7 : List Tok :=
  [Tok.num 1, Tok.num 2, Tok.num 3, Tok.num 4, Tok.num 5, Tok.num 6, Tok.num 7]

/-- A six-token payload (one full bar). -/
def toks6 : List Tok :=
  [Tok.num 1, Tok.num 2, Tok.num 3, Tok.num 4, Tok.num 5, Tok.num 6]

/-- The single bar the six-token payload loads to. -/
def df₆ : Bars :=
  ⟨[some 1], [some 2], [some 3], [some 4], [some 5], [some 6]⟩

lemma val_eval₁ : value df₁ p₁ = [none, none, some (1 / 4)] := by
  norm_num [value, rollingCol, rollingAt, windowSlice, allSome, devCol, ohlc4, m1,
    highest, lowest, sma_hl2, hl2, omap2, meanQ, maxQ, minQ, polyfitEval, lsqSlope,
    lsqIntercept, Sx, Sxx, Sy, Sxy, df₁, p₁, List.range_succ]

lemma val_eval₂ : value df₁ p₂ = [none, none, some (1 / 4)] := by
  norm_num [value, rollingCol, rollingAt, windowSlice, allSome, devCol, ohlc4, m1,
    highest, lowest, sma_hl2, hl2, omap2, meanQ, maxQ, minQ, polyfitEval, lsqSlope,
    lsqIntercept, Sx, Sxx, Sy, Sxy, df₁, p₂, List.range_succ]

lemma colors_eval₁ : colors df₁ p₁ = ["red", "maroon", "green"] := by
  rw [colors, val_eval₁]
  norm_num [colorsOf, colorAt, ogeZ, ogtPrev, oltPrev, List.range_succ]

lemma colors_eval₂ : colors df₁ p₂ = ["red", "maroon", "green"] := by
  rw [colors, val_eval₂]
  norm_num [colorsOf, colorAt, ogeZ, ogtPrev, oltPrev, List.range_succ]

lemma first_defined₁ : FirstDefined (value df₁ p₁) 2 := by
  rw [val_eval₁]
  constructor
  · simp
  · intro j hj
    interval_cases j <;> simp

/-! ### The claims -/

/-- Claim C1 (corrected).  The original claim said the first defined
momentum index is treated by the initial-index rule (`lime`/`red`); in the
code only index 0 is.  A first defined value at a positive index is compared
against its missing predecessor, the comparison is false, and the color
stays at the base `green`/`maroon`. -/
theorem C1_theorem : ∀ (df : Bars) (p : Params) (i : ℕ) (v : ℚ),
    FirstDefined (value df p) i → (value df p).getD i none = some v →
    (colors df p).getD i "" =
      if i = 0 then (if 0 ≤ v then "lime" else "red")
      else (if 0 ≤ v then "green" else "maroon") := by
  intro df p i v hfd hv
  rw [colors]
  exact colorsOf_first_defined (value df p) i v hfd hv

/-- Claim C1, witness: a concrete run whose first defined momentum value
sits at index 2 and is classified by the running rule. -/
theorem C1_witness : (colors df₁ p₁).getD 2 "" = "green" := by
  have hv : (value df₁ p₁).getD 2 none = some (1 / 4) := by
    rw [val_eval₁]
    rfl
  have h := C1_theorem df₁ p₁ 2 (1 / 4) first_defined₁ hv
  norm_num at h
  exact h

/-- Claim C1, counterexample to the original statement: the first defined
momentum value is `1/4 ≥ 0` at index 2, yet its color is not `lime`. -/
theorem C1_counterexample :
    FirstDefined (value df₁ p₁) 2 ∧ (value df₁ p₁).getD 2 none = some (1 / 4) ∧
    (0 : ℚ) ≤ 1 / 4 ∧ (colors df₁ p₁).getD 2 "" ≠ "lime" := by
  refine ⟨first_defined₁, by rw [val_eval₁]; rfl, by norm_num, ?_⟩
  rw [colors_eval₁]
  simp

/-- Claim C2 (corrected).  Rolling statistics are undefined while the window
is not fully populated, and undefinedness propagates through the indicator
columns; but the color loop does assign labels at undefined momentum
indices (`red` at index 0, `maroon` later), because NaN comparisons are
false rather than refused. -/
theorem C2_theorem : ∀ (df : Bars) (p : Params),
    (∀ i, i + 1 < p.length → (m_avg1 df p).getD i none = none) ∧
    (∀ i, i + 1 < p.length_KC → (value df p).getD i none = none) ∧
    ((value df p).getD 0 none = none → 0 < (value df p).length →
      (colors df p).getD 0 "" = "red") ∧
    (∀ i, 0 < i → i < (value df p).length → (value df p).getD i none = none →
      (colors df p).getD i "" = "maroon") := by
  intro df p
  refine ⟨?_, ?_, ?_, ?_⟩
  · intro i hi
    rw [m_avg1, rollingCol_getD]
    exact rollingAt_not_full _ _ _ _ hi
  · intro i hi
    rw [value, rollingCol_getD]
    exact rollingAt_not_full _ _ _ _ hi
  · intro h0 hlen
    rw [colors, colorsOf_getD _ _ hlen]
    exact colorAt_zero_none _ h0
  · intro i h0 hlen hnone
    rw [colors, colorsOf_getD _ _ hlen]
    exact colorAt_pos_none _ i (by omega) hnone

/-- Claim C2, witness: with `length = length_KC = 2`, index 0 is undefined
for every rolling statistic, and the color loop labels the undefined
indices 0 and 1 anyway. -/
theorem C2_witness :
    (m_avg1 df₁ p₂).getD 0 none = none ∧ (value df₁ p₂).getD 0 none = none ∧
    (colors df₁ p₂).getD 0 "" = "red" ∧ (colors df₁ p₂).getD 1 "" = "maroon" := by
  obtain ⟨h1, h2, h3, h4⟩ := C2_theorem df₁ p₂
  refine ⟨h1 0 (by norm_num [p₂]), h2 0 (by norm_num [p₂]), h3 ?_ ?_, h4 1 (by norm_num) ?_ ?_⟩
  · rw [val_eval₂]
    rfl
  · rw [val_eval₂]
    norm_num
  · rw [val_eval₂]
    norm_num
  · rw [val_eval₂]
    rfl

/-- Claim C2, counterexample to the "no color label at undefined indices"
part: momentum is undefined at indices 0 and 1, yet both receive labels. -/
theorem C2_counterexample :
    (value df₁ p₂).getD 0 none = none ∧ (colors df₁ p₂).getD 0 "" = "red" ∧
    (value df₁ p₂).getD 1 none = none ∧ (colors df₁ p₂).getD 1 "" = "maroon" := by
  rw [val_eval₂, colors_eval₂]
  norm_num

/-- Claim C3 (corrected).  The loader does not reject payloads whose token
count is not a multiple of six: any payload of at least six parseable tokens
loads, a short final chunk being padded with missing values.  (A payload of
fewer than six tokens fails with the column-count error, and an unparseable
token with the cast error; neither is a `MalformedInputError`, which does
not exist in the code.) -/
theorem C3_theorem : ∀ toks : List Tok, 6 ≤ toks.length →
    (∀ t ∈ toks, t ≠ Tok.bad) → ∃ bars, loadBars toks = Except.ok bars := by
  intro toks h6 hgood
  rw [loadBars]
  rw [if_neg (by rw [inferredWidth_six toks h6]; exact fun hne => hne rfl)]
  rw [if_neg ?hbad]
  case hbad =>
    intro hany
    obtain ⟨t, ht, hbad⟩ := List.any_eq_true.mp hany
    cases t with
    | num q => exact Bool.noConfusion hbad
    | bad => exact hgood _ ht rfl
  exact ⟨_, rfl⟩

/-- Claim C3, witness: the seven-token payload loads successfully. -/
theorem C3_witness : isOkE (loadBars toks7) = true := by
  obtain ⟨bars, hb⟩ := C3_theorem toks7 (by norm_num [toks7]) (by decide)
  rw [hb]
  rfl

/-- Claim C3, counterexample to the original statement: seven tokens do not
raise; they produce two bars, the second padded with missing fields. -/
theorem C3_counterexample :
    loadBars toks7 = Except.ok
      ⟨[some 1, some 7], [some 2, none], [some 3, none],
       [some 4, none], [some 5, none], [some 6, none]⟩ := rfl

/-- Claim C4 (confirmed).  A defined momentum value is the least-squares
line over the trailing fully-populated `length_KC`-wide deviation window,
evaluated at the last in-window x-coordinate `length_KC - 1`; the fitted
coefficients globally minimise the sum of squared residuals against
x-coordinates `0, …, length_KC - 1`. -/
theorem C4_theorem : ∀ (df : Bars) (p : Params) (i : ℕ) (v a b : ℚ),
    (value df p).getD i none = some v →
    allSome (windowSlice (devCol df p) p.length_KC i) = some (devWindow df p i) ∧
    (devWindow df p i).length = p.length_KC ∧
    v = lsqSlope (devWindow df p i) * ((p.length_KC : ℚ) - 1) +
      lsqIntercept (devWindow df p i) ∧
    RSS (devWindow df p i) (lsqSlope (devWindow df p i))
      (lsqIntercept (devWindow df p i)) ≤ RSS (devWindow df p i) a b := by
  intro df p i v a b h
  obtain ⟨h1, h2, h3⟩ := value_some_elim h
  refine ⟨h1, h2, ?_, RSS_min _ a b⟩
  rw [h3, polyfitEval]

/-- Claim C4, witness: the defined value `1/4` at index 2 of the concrete
run is the fitted line at `x = 1`, and the fit beats the line `y = 0`. -/
theorem C4_witness :
    (value df₁ p₁).getD 2 none = some (1 / 4) ∧
    (1 / 4 : ℚ) = lsqSlope (devWindow df₁ p₁ 2) * ((p₁.length_KC : ℚ) - 1) +
      lsqIntercept (devWindow df₁ p₁ 2) ∧
    RSS (devWindow df₁ p₁ 2) (lsqSlope (devWindow df₁ p₁ 2))
      (lsqIntercept (devWindow df₁ p₁ 2)) ≤ RSS (devWindow df₁ p₁ 2) 0 0 := by
  have hv : (value df₁ p₁).getD 2 none = some (1 / 4) := by
    rw [val_eval₁]
    rfl
  obtain ⟨h1, h2, h3, h4⟩ := C4_theorem df₁ p₁ 2 (1 / 4) 0 0 hv
  exact ⟨hv, h3, h4⟩

/-- Scenario A evaluated at the rational level: on the flat 25-bar frame,
every fully-populated window is constant. -/
lemma scenA (i : ℕ) (h19 : 19 ≤ i) (h25 : i < 25) :
    (m_avg1 dfA pA).getD i none = some 10 ∧
    (m_var dfA pA).getD i none = some 0 ∧
    (range_ma dfA pA).getD i none = some 2 ∧
    (m_avg2 dfA pA).getD i none = some 10 ∧
    (upper_KC dfA pA).getD i none = some 13 ∧
    (lower_KC dfA pA).getD i none = some 7 := by
  have hC : ohlc4 dfA = List.replicate 25 (some 10) := rfl
  have hT : tr dfA = List.replicate 25 (some 2) := by
    show List.zipWith (omap2 (fun h l => h - l)) (List.replicate 25 (some 11))
      (List.replicate 25 (some 9)) = _
    rw [omap2_replicate]
    norm_num
  have h1 : (m_avg1 dfA pA).getD i none = some 10 := by
    rw [m_avg1, rollingCol_getD, hC]
    have hw : pA.length = 20 := rfl
    rw [hw, rollingAt_replicate 20 25 i 10 meanQ (by norm_num) (by omega) h25,
      meanQ_replicate 20 10 (by norm_num)]
  have hv : (m_var dfA pA).getD i none = some 0 := by
    rw [m_var, rollingCol_getD, hC]
    have hw : pA.length = 20 := rfl
    rw [hw, rollingAt_replicate 20 25 i 10 varQ (by norm_num) (by omega) h25,
      varQ_replicate 20 10 (by norm_num)]
  have hr : (range_ma dfA pA).getD i none = some 2 := by
    rw [range_ma, rollingCol_getD, hT]
    have hw : pA.length_KC = 20 := rfl
    rw [hw, rollingAt_replicate 20 25 i 2 meanQ (by norm_num) (by omega) h25,
      meanQ_replicate 20 2 (by norm_num)]
  have h2 : (m_avg2 dfA pA).getD i none = some 10 := by
    rw [m_avg2, rollingCol_getD, hC]
    have hw : pA.length_KC = 20 := rfl
    rw [hw, rollingAt_replicate 20 25 i 10 meanQ (by norm_num) (by omega) h25,
      meanQ_replicate 20 10 (by norm_num)]
  refine ⟨h1, hv, hr, h2, ?_, ?_⟩
  · rw [upper_KC, zipWith_omap2_getD, h2, hr]
    show some (10 + 2 * pA.mult_KC) = some 13
    norm_num [pA]
  · rw [lower_KC, zipWith_omap2_getD, h2, hr]
    show some (10 - 2 * pA.mult_KC) = some 7
    norm_num [pA]

/-- Claim C5 (corrected).  On the flat Scenario-A frame the standard
deviation is 0 and both Bollinger bands collapse to 10, `range_ma = 2`, and
the squeeze is on at every fully-populated index — but the Keltner channels
are `10 ± 2·1.5 = 13 / 7`, not the `12.5 / 7.5` the original claim
expected. -/
theorem C5_theorem : ∀ i, 19 ≤ i → i < 25 →
    m_stdR dfA pA i = some 0 ∧
    upper_BB dfA pA i = some 10 ∧
    lower_BB dfA pA i = some 10 ∧
    (range_ma dfA pA).getD i none = some 2 ∧
    (upper_KC dfA pA).getD i none = some 13 ∧
    (lower_KC dfA pA).getD i none = some 7 ∧
    squeeze_on dfA pA i := by
  intro i h19 h25
  obtain ⟨h1, hv, hr, h2, huk, hlk⟩ := scenA i h19 h25
  have hstd : m_stdR dfA pA i = some 0 := by
    rw [m_stdR, hv]
    norm_num
  have hub : upper_BB dfA pA i = some 10 := by
    rw [upper_BB, h1, hv]
    norm_num [pA]
  have hlb : lower_BB dfA pA i = some 10 := by
    rw [lower_BB, h1, hv]
    norm_num [pA]
  refine ⟨hstd, hub, hlb, hr, huk, hlk, ⟨7, 10, hlk, hlb, by norm_num⟩,
    ⟨10, 13, hub, huk, by norm_num⟩⟩

/-- Claim C5, witness: the amended Scenario-A expectations at index 19. -/
theorem C5_witness :
    m_stdR dfA pA 19 = some 0 ∧
    upper_BB dfA pA 19 = some 10 ∧
    lower_BB dfA pA 19 = some 10 ∧
    (range_ma dfA pA).getD 19 none = some 2 ∧
    (upper_KC dfA pA).getD 19 none = some 13 ∧
    (lower_KC dfA pA).getD 19 none = some 7 ∧
    squeeze_on dfA pA 19 :=
  C5_theorem 19 (by norm_num) (by norm_num)

/-- Claim C5, counterexample to the original statement: the Keltner channel
values on Scenario A are not `25/2` and `15/2`. -/
theorem C5_counterexample :
    (upper_KC dfA pA).getD 19 none ≠ some (25 / 2) ∧
    (lower_KC dfA pA).getD 19 none ≠ some (15 / 2) := by
  obtain ⟨-, -, -, -, huk, hlk⟩ := scenA 19 (by norm_num) (by norm_num)
  rw [huk, hlk]
  constructor <;> intro hcon <;> rw [Option.some.injEq] at hcon <;> norm_num at hcon

/-- Claim C6 (confirmed).  `squeeze_on` and `squeeze_off` are never both
true at the same index: both demand a strict comparison between the same
two band values, in opposite directions. -/
theorem C6_theorem : ∀ (df : Bars) (p : Params) (i : ℕ),
    ¬ squeeze_on df p i ∨ ¬ squeeze_off df p i := by
  intro df p i
  by_cases hon : squeeze_on df p i
  · right
    intro hoff
    obtain ⟨⟨x, y, hq, hr, hxy⟩, -⟩ := hon
    obtain ⟨⟨y', x', hr', hq', hyx⟩, -⟩ := hoff
    rw [hq] at hq'
    rw [hr] at hr'
    rw [Option.some.injEq] at hq' hr'
    subst hq'
    subst hr'
    exact absurd (hxy.trans hyx) (lt_irrefl _)
  · left
    exact hon

/-- Claim C6, witness: the exclusion at a concrete frame and index. -/
theorem C6_witness : ¬ squeeze_on dfA pA 0 ∨ ¬ squeeze_off dfA pA 0 :=
  C6_theorem dfA pA 0

/-- Claim C7 (confirmed).  Wherever both Bollinger bands are defined and the
deviation multiplier is nonnegative, the upper band dominates the lower:
they differ by `2 · mult · √variance ≥ 0`. -/
theorem C7_theorem : ∀ (df : Bars) (p : Params) (i : ℕ) (u l : ℝ),
    0 ≤ p.mult → upper_BB df p i = some u → lower_BB df p i = some l → l ≤ u := by
  intro df p i u l hm hu hl
  rw [upper_BB] at hu
  rw [lower_BB] at hl
  cases hm1 : (m_avg1 df p).getD i none with
  | none =>
    rw [hm1] at hu
    simp at hu
  | some m =>
    cases hv1 : (m_var df p).getD i none with
    | none =>
      rw [hm1, hv1] at hu
      simp at hu
    | some v =>
      rw [hm1, hv1] at hu hl
      simp only [Option.some.injEq] at hu hl
      have hnn : 0 ≤ (p.mult : ℝ) * Real.sqrt (v : ℝ) :=
        mul_nonneg (by exact_mod_cast hm) (Real.sqrt_nonneg _)
      rw [← hu, ← hl]
      linarith

/-- Claim C7, witness: on a one-bar frame with window 1 both bands are
defined and ordered. -/
theorem C7_witness :
    (0 : ℚ) ≤ p₇.mult ∧
    upper_BB df₇ p₇ 0 = some (10 + 2 * Real.sqrt 0) ∧
    lower_BB df₇ p₇ 0 = some (10 - 2 * Real.sqrt 0) ∧
    ((10 : ℝ) - 2 * Real.sqrt 0 ≤ 10 + 2 * Real.sqrt 0) := by
  have hm : (m_avg1 df₇ p₇).getD 0 none = some 10 := by
    norm_num [m_avg1, rollingCol, rollingAt, windowSlice, allSome, ohlc4, df₇, p₇,
      meanQ, List.range_succ]
  have hv : (m_var df₇ p₇).getD 0 none = some 0 := by
    norm_num [m_var, rollingCol, rollingAt, windowSlice, allSome, ohlc4, df₇, p₇,
      varQ, meanQ, List.range_succ]
  have hub : upper_BB df₇ p₇ 0 = some (10 + 2 * Real.sqrt 0) := by
    rw [upper_BB, hm, hv]
    norm_num [p₇]
  have hlb : lower_BB df₇ p₇ 0 = some (10 - 2 * Real.sqrt 0) := by
    rw [lower_BB, hm, hv]
    norm_num [p₇]
  exact ⟨by norm_num [p₇], hub, hlb, C7_theorem df₇ p₇ 0 _ _ (by norm_num [p₇]) hub hlb⟩

/-- Claim C8 (corrected).  The code never validates the window parameters
and defines no `InvalidParameterError`.  A zero Bollinger window does not
fail at all: its rolling statistics and both bands are undefined at every
index, both squeeze flags are false, and (as long as the momentum window is
positive) the momentum step still succeeds.  A zero momentum window over a
nonempty frame does fail — but with the `TypeError` that `np.polyfit`
raises on the empty regression window, during the indicator computation and
after the band statistics were already computed, not before computation
begins. -/
theorem C8_theorem : ∀ (df : Bars) (m mk : ℚ) (kc i : ℕ),
    (m_avg1 df ⟨0, m, kc, mk⟩).getD i none = none ∧
    upper_BB df ⟨0, m, kc, mk⟩ i = none ∧
    lower_BB df ⟨0, m, kc, mk⟩ i = none ∧
    ¬ squeeze_on df ⟨0, m, kc, mk⟩ i ∧
    ¬ squeeze_off df ⟨0, m, kc, mk⟩ i ∧
    (kc ≠ 0 → valueE df ⟨0, m, kc, mk⟩ = Except.ok (value df ⟨0, m, kc, mk⟩)) ∧
    ((devCol df ⟨0, m, 0, mk⟩).length ≠ 0 →
      valueE df ⟨0, m, 0, mk⟩ = Except.error RunErr.typeError) := by
  intro df m mk kc i
  have h1 : (m_avg1 df ⟨0, m, kc, mk⟩).getD i none = none := by
    rw [m_avg1, rollingCol_getD, rollingAt, if_neg]
    intro hc
    exact absurd hc.1 (by norm_num)
  have hub : upper_BB df ⟨0, m, kc, mk⟩ i = none := by
    rw [upper_BB, h1]
  have hlb : lower_BB df ⟨0, m, kc, mk⟩ i = none := by
    rw [lower_BB, h1]
  refine ⟨h1, hub, hlb, ?_, ?_, ?_, ?_⟩
  · intro hon
    obtain ⟨⟨x, y, -, hr, -⟩, -⟩ := hon
    rw [hlb] at hr
    exact Option.noConfusion hr
  · intro hoff
    obtain ⟨⟨y, x, hr, -, -⟩, -⟩ := hoff
    rw [hlb] at hr
    exact Option.noConfusion hr
  · intro hkc
    rw [valueE, if_neg (fun hc => hkc hc.1)]
  · intro hlen
    rw [valueE, if_pos ⟨rfl, hlen⟩]

/-- Claim C8, witness: the zero-Bollinger-window behaviour at a concrete
frame and index, and the momentum-window `TypeError` on the same frame. -/
theorem C8_witness :
    (m_avg1 df₁ ⟨0, 2, 1, 3 / 2⟩).getD 0 none = none ∧
    upper_BB df₁ ⟨0, 2, 1, 3 / 2⟩ 0 = none ∧
    lower_BB df₁ ⟨0, 2, 1, 3 / 2⟩ 0 = none ∧
    ¬ squeeze_on df₁ ⟨0, 2, 1, 3 / 2⟩ 0 ∧
    ¬ squeeze_off df₁ ⟨0, 2, 1, 3 / 2⟩ 0 ∧
    valueE df₁ ⟨0, 2, 1, 3 / 2⟩ = Except.ok (value df₁ ⟨0, 2, 1, 3 / 2⟩) ∧
    valueE df₁ ⟨0, 2, 0, 3 / 2⟩ = Except.error RunErr.typeError := by
  obtain ⟨h1, h2, h3, h4, h5, h6, h7⟩ := C8_theorem df₁ 2 (3 / 2) 1 0
  exact ⟨h1, h2, h3, h4, h5, h6 (by norm_num), h7 (by decide)⟩

/-- Claim C8, counterexample to the original statement: a zero Bollinger
window (a window length ≤ 0) makes the pipeline complete normally rather
than fail, and a zero momentum window fails with the polyfit `TypeError`
at the momentum step, not with an `InvalidParameterError` before
computation. -/
theorem C8_counterexample :
    runPipeline toks6 ⟨0, 2, 1, 3 / 2⟩ = Except.ok ([some (11 / 8)], ["lime"]) ∧
    runPipeline toks6 ⟨0, 2, 0, 3 / 2⟩ =
      Except.error (ScriptErr.run RunErr.typeError) := by
  have hload : loadBars toks6 = Except.ok df₆ := rfl
  constructor
  · have hval : value df₆ ⟨0, 2, 1, 3 / 2⟩ = [some (11 / 8)] := by
      norm_num [value, rollingCol, rollingAt, windowSlice, allSome, devCol, ohlc4, m1,
        highest, lowest, sma_hl2, hl2, omap2, meanQ, maxQ, minQ, polyfitEval, lsqSlope,
        lsqIntercept, Sx, Sxx, Sy, Sxy, df₆, List.range_succ]
    have hvE : valueE df₆ ⟨0, 2, 1, 3 / 2⟩ = Except.ok [some (11 / 8)] := by
      rw [valueE, if_neg (fun hc => absurd hc.1 one_ne_zero), hval]
    rw [runPipeline, hload]
    simp only [hvE]
    norm_num [colorsOf, colorAt, ogeZ, List.range_succ]
  · have hvE : valueE df₆ ⟨0, 2, 0, 3 / 2⟩ = Except.error RunErr.typeError := by
      rw [valueE, if_pos ⟨rfl, by decide⟩]
    rw [runPipeline, hload]
    simp only [hvE]

/-- Claim C9 (confirmed).  With `length = length_KC = 1` every rolling
statistic is the bar's own value, the variance (hence the standard
deviation) is zero, both Bollinger bands collapse to the basis, and the
momentum value is exactly the deviation series. -/
theorem C9_theorem : ∀ (df : Bars) (m mk : ℚ) (i : ℕ),
    (m_avg1 df ⟨1, m, 1, mk⟩).getD i none = (ohlc4 df).getD i none ∧
    (m_avg2 df ⟨1, m, 1, mk⟩).getD i none = (ohlc4 df).getD i none ∧
    (range_ma df ⟨1, m, 1, mk⟩).getD i none = (tr df).getD i none ∧
    (highest df ⟨1, m, 1, mk⟩).getD i none = (hl2 df).getD i none ∧
    (lowest df ⟨1, m, 1, mk⟩).getD i none = df.Low.getD i none ∧
    (sma_hl2 df ⟨1, m, 1, mk⟩).getD i none = (hl2 df).getD i none ∧
    (m_var df ⟨1, m, 1, mk⟩).getD i none =
      ((ohlc4 df).getD i none).map (fun _ => 0) ∧
    m_stdR df ⟨1, m, 1, mk⟩ i = ((ohlc4 df).getD i none).map (fun _ => (0 : ℝ)) ∧
    upper_BB df ⟨1, m, 1, mk⟩ i = ((ohlc4 df).getD i none).map (fun x => (x : ℝ)) ∧
    lower_BB df ⟨1, m, 1, mk⟩ i = ((ohlc4 df).getD i none).map (fun x => (x : ℝ)) ∧
    (value df ⟨1, m, 1, mk⟩).getD i none = (devCol df ⟨1, m, 1, mk⟩).getD i none := by
  intro df m mk i
  have eId : ∀ (f : List ℚ → ℚ) (s : List (Option ℚ)), (∀ x, f [x] = x) →
      (rollingCol 1 f s).getD i none = s.getD i none := by
    intro f s hf
    rw [rollingCol_getD, rollingAt_one]
    cases hx : s.getD i none <;> simp [hf]
  have h1 : (m_avg1 df ⟨1, m, 1, mk⟩).getD i none = (ohlc4 df).getD i none :=
    eId meanQ (ohlc4 df) meanQ_singleton
  have hvar : (m_var df ⟨1, m, 1, mk⟩).getD i none =
      ((ohlc4 df).getD i none).map (fun _ => 0) := by
    rw [m_var]
    show (rollingCol 1 varQ (ohlc4 df)).getD i none = _
    rw [rollingCol_getD, rollingAt_one]
    cases hx : (ohlc4 df).getD i none <;> simp [varQ_singleton]
  refine ⟨h1, eId meanQ (ohlc4 df) meanQ_singleton,
    eId meanQ (tr df) meanQ_singleton, eId maxQ (hl2 df) maxQ_singleton,
    eId minQ df.Low minQ_singleton, eId meanQ (hl2 df) meanQ_singleton,
    hvar, ?_, ?_, ?_, ?_⟩
  · rw [m_stdR, hvar]
    cases hx : (ohlc4 df).getD i none <;> simp
  · rw [upper_BB, h1, hvar]
    cases hx : (ohlc4 df).getD i none <;> simp
  · rw [lower_BB, h1, hvar]
    cases hx : (ohlc4 df).getD i none <;> simp
  · rw [value]
    show (rollingCol 1 (polyfitEval 1) (devCol df ⟨1, m, 1, mk⟩)).getD i none = _
    rw [rollingCol_getD, rollingAt_one]
    cases hx : (devCol df ⟨1, m, 1, mk⟩).getD i none <;> simp [polyfitEval_one]

/-! ### The frame effect -/

lemma getCol_setCol_ne (nm key : String) (c : ColData)
    (fr : List (String × ColData)) (h : nm ≠ key) :
    getCol (setCol nm c fr) key = getCol fr key := by
  induction fr with
  | nil => simp [setCol, getCol, h]
  | cons hd t ih =>
    obtain ⟨n, d⟩ := hd
    rw [setCol]
    by_cases hn : n = nm
    · rw [if_pos hn, getCol, getCol, if_neg (by rw [hn]; exact h),
        if_neg (by rw [hn]; exact h)]
    · rw [if_neg hn, getCol, getCol]
      by_cases hk : n = key
      · rw [if_pos hk, if_pos hk]
      · rw [if_neg hk, if_neg hk]
        exact ih

/-- Claim C10 (confirmed).  `squeeze_indicator` only assigns derived
columns; each of the six original bar columns is still present, unchanged,
after the call. -/
theorem C10_theorem : ∀ (df : Bars) (p : Params),
    getCol (squeeze_indicator df p) "Timestamp" = some (ColData.qcol df.Timestamp) ∧
    getCol (squeeze_indicator df p) "Open" = some (ColData.qcol df.Open) ∧
    getCol (squeeze_indicator df p) "High" = some (ColData.qcol df.High) ∧
    getCol (squeeze_indicator df p) "Low" = some (ColData.qcol df.Low) ∧
    getCol (squeeze_indicator df p) "Close" = some (ColData.qcol df.Close) ∧
    getCol (squeeze_indicator df p) "Volume" = some (ColData.qcol df.Volume) := by
  intro df p
  refine ⟨?_, ?_, ?_, ?_, ?_, ?_⟩ <;>
    · rw [squeeze_indicator]
      repeat rw [getCol_setCol_ne _ _ _ _ (by simp)]
      simp [barsFrame, getCol]

end Squeeze
